import Mathlib

/-!
Verification of the data-binding core of OpenRCT2-RideVehicleEditor:
the `Observable` value holder, the `Binder` module (`applyBinding`,
`Binder.apply`, `Binder.applyAll`) and the `Component` lifecycle wrapper.

The embedding is shallow.  Values flowing through observables and view
fields are modelled by `Val`.  The mutable world (the observables owned by
the viewmodels, the calls made on the binding context, and the warnings
logged by the binder) is threaded explicitly as a `BState`.  Subscriber
closures are defunctionalized: the only closures the binder ever subscribes
are of the shape `value => context.setField(field, value)`, so a subscriber
is represented by the name of the target field; the only handlers it ever
registers are `(v) => observable.set(v)`, represented by the id of the
observable.  `context.setField` is modelled as appending to a trace of
field writes, which records both display pushes and handler registrations.
-/

/-- Values carried by observables and pushed into view fields. -/
inductive Val where
  | int : Int → Val
  | str : String → Val
deriving DecidableEq, Repr

/-- Modelled from the spec (the file `observable.ts` is absent from the
sources): an Observable is a single-value holder together with an ordered
list of subscriber callbacks, insertion order being notification order.
Each subscriber the binder registers pushes the received value into one
view field, so it is represented by that field's name. -/
structure Obs where
  value : Val
  subs : List String
deriving DecidableEq, Repr

/-- One call made on the binding context: either a display write
`setField(field, value)` or the registration of a reverse-update handler
`setField(field, v => observable.set(v))`, the handler being represented
by the id of the observable it writes. -/
inductive FieldWrite where
  | value : String → Val → FieldWrite
  | handler : String → Nat → FieldWrite
deriving DecidableEq, Repr

/-- The explicit state: the observable store (ids are list indices), the
trace of `setField` calls made on the context, and the warnings the binder
has logged. -/
structure BState where
  observables : List Obs
  trace : List FieldWrite
  warnings : List String
deriving DecidableEq, Repr

/-- Current value of observable `id` (the binder only dereferences ids it
obtained from the viewmodel, so a default is never reached in scope). -/
def obsGet (s : BState) (id : Nat) : Val :=
  (s.observables.getD id ⟨Val.int 0, []⟩).value

/-- Subscriber list of observable `id`. -/
def subsOf (s : BState) (id : Nat) : List String :=
  (s.observables.getD id ⟨Val.int 0, []⟩).subs

/-- Modelled from the spec: `context.setField(name, value)` pushes one
value (or registers one handler) on the view; the embedding records the
call on the trace. -/
def setField (s : BState) (w : FieldWrite) : BState :=
  { s with trace := s.trace ++ [w] }

/-- Modelled from the spec: `Observable.set(value)` stores the new value
unconditionally (no equality check), then invokes every subscriber in
subscription order with the new value; each subscriber pushes that value
to its target field. -/
def obsSet (s : BState) (id : Nat) (v : Val) : BState :=
  let o := s.observables.getD id ⟨Val.int 0, []⟩
  { s with
    observables := s.observables.set id { o with value := v },
    trace := s.trace ++ o.subs.map (fun f => FieldWrite.value f v) }

/-- Modelled from the spec: `Observable.subscribe(callback)` appends the
callback to the subscriber list and never invokes it immediately. -/
def obsSubscribe (s : BState) (id : Nat) (f : String) : BState :=
  let o := s.observables.getD id ⟨Val.int 0, []⟩
  { s with observables := s.observables.set id { o with subs := o.subs ++ [f] } }

/-- A property of a viewmodel: either an Observable (referenced by id in
the store) or some other, non-observable value. -/
inductive VMProp where
  | obs : Nat → VMProp
  | raw : Val → VMProp
deriving DecidableEq, Repr

/-- A viewmodel: a record from property names to properties; an absent key
is `undefined`. -/
abbrev VM := List (String × VMProp)

/-- First-match association-list lookup, the record access `r[k]`. -/
def alookup {α : Type} (l : List (String × α)) (k : String) : Option α :=
  match l with
  | [] => none
  | (k', v) :: rest => if k' = k then some v else alookup rest k

/-- Lookup of a property on a viewmodel, `viewmodel[bindSource]`. -/
def vmLookup (vm : VM) (k : String) : Option VMProp :=
  alookup vm k

/-- The three descriptor shapes of the source: a bare string (`ToTarget`),
or an object that may carry `bind` and `update` keys (`ToSource` has only
`update`, `TwoWay` has both; an object with neither field is expressible,
as it is in the source's runtime). -/
inductive BindingDesc where
  | toTarget : String → BindingDesc
  | obj : Option String → Option String → BindingDesc
deriving DecidableEq, Repr

/-- The `bind` key of an object descriptor. -/
def BindingDesc.bindField : BindingDesc → Option String
  | .toTarget _ => none
  | .obj b _ => b

/-- The `update` key of an object descriptor. -/
def BindingDesc.updateField : BindingDesc → Option String
  | .toTarget _ => none
  | .obj _ u => u

/-- A bindings record: viewmodel property name to descriptor. -/
abbrev Bindings := List (String × BindingDesc)

/-- `applyBinding(context, viewmodel, bindings, bindSource)`: resolves the
named property on the viewmodel; returns `false` (leaving the state
untouched apart from an advisory debug log, which is not modelled) when the
property is `undefined` or not an `Observable`.  Otherwise dispatches on
the descriptor shape: a string is one-way to target (initial push, then
subscribe); an object with `update` registers the reverse write channel
and, when `bind` is also present, additionally performs the to-target
push and subscription; an object without `update` does nothing.  Returns
`true` in every resolved case. -/
def applyBinding (s : BState) (vm : VM) (bindings : Bindings) (bindSource : String) :
    BState × Bool :=
  match vmLookup vm bindSource with
  | none => (s, false)
  | some (.raw _) => (s, false)
  | some (.obs id) =>
    match alookup bindings bindSource with
    | some (.toTarget f) =>
      let s := setField s (.value f (obsGet s id))
      let s := obsSubscribe s id f
      (s, true)
    | some (.obj bindF updF) =>
      match updF with
      | some u =>
        let s := setField s (.handler u id)
        match bindF with
        | some b =>
          let s := setField s (.value b (obsGet s id))
          let s := obsSubscribe s id b
          (s, true)
        | none => (s, true)
      | none => (s, true)
    | none => (s, true)

/-- `Binder.apply(context, viewmodel, bindings)`: iterates the keys of the
bindings record in order; a key whose `applyBinding` fails is logged as a
warning and the remaining keys still proceed. -/
def Binder.apply (s : BState) (vm : VM) (bindings : Bindings) : BState :=
  bindings.foldl
    (fun st kv =>
      let r := applyBinding st vm bindings kv.1
      if r.2 then r.1 else { r.1 with warnings := r.1.warnings ++ [kv.1] })
    s

/-- One step of the inner loop of `Binder.applyAll`:
`success = (applyBinding(context, vm, bindings, bindSource) || success)`;
`applyBinding` is evaluated on every viewmodel, also after a success. -/
def applyAllStep (bindings : Bindings) (k : String) (acc : BState × Bool) (vm : VM) :
    BState × Bool :=
  let r := applyBinding acc.1 vm bindings k
  (r.1, r.2 || acc.2)

/-- `Binder.applyAll(context, viewmodels, bindings)`: for every key,
attempts the binding on each viewmodel in order; the warning is logged
only when no viewmodel resolved the key. -/
def Binder.applyAll (s : BState) (vms : List VM) (bindings : Bindings) : BState :=
  bindings.foldl
    (fun st kv =>
      let r := vms.foldl (applyAllStep bindings kv.1) (st, false)
      if r.2 then r.1 else { r.1 with warnings := r.1.warnings ++ [kv.1] })
    s

/-- Whether the key resolves to an Observable on the viewmodel: exactly the
condition under which `applyBinding` does not fail. -/
def resolvesObs (vm : VM) (k : String) : Bool :=
  match vmLookup vm k with
  | some (.obs _) => true
  | _ => false

/-- The handler most recently registered on a view field, if any: the
context keeps, per field, the last callback passed to `setField`. -/
def latestHandler (t : List FieldWrite) (u : String) : Option Nat :=
  t.reverse.findSome? (fun w =>
    match w with
    | .handler u' id => if u' = u then some id else none
    | .value _ _ => none)

/-- The view producing a new value on field `u` (e.g. user input): the
context invokes the registered handler with the value, which writes it
into the bound observable; without a registered handler nothing happens. -/
def invokeField (s : BState) (u : String) (v : Val) : BState :=
  match latestHandler s.trace u with
  | some id => obsSet s id v
  | none => s

/-- A widget of the host window: its name identity and its disabled flag. -/
structure Widget where
  name : String
  isDisabled : Bool
deriving DecidableEq, Repr

/-- A host window: its widgets. -/
abbrev Window := List Widget

/-- Modelled from the spec (the windowing system is an external
collaborator): `window.findWidget(name)` looks a widget up by name. -/
def findWidget (w : Window) (name : String) : Option Widget :=
  w.find? (fun widget => widget.name = name)

/-- Replaces the first widget with the given name, the in-place mutation
of the widget object `findWidget` returned. -/
def updateFirst (w : Window) (name : String) (f : Widget → Widget) : Window :=
  match w with
  | [] => []
  | x :: xs => if x.name = name then f x :: xs else x :: updateFirst xs name f

/-- A component: its immutable widget description (its name identity) and
the optionally bound host window. -/
structure Component where
  window : Option Window
  description : String
deriving DecidableEq, Repr

/-- `Component.bind(window)`: stores the host reference.  The subsequent
`refresh()` only calls the abstract `refreshWidget` hook, which has no
effect modelled here. -/
def Component.bind (c : Component) (w : Window) : Component :=
  { c with window := some w }

/-- `Component.getWidget()`: throws "The window is gone." when no host is
bound; otherwise resolves the widget by the description's name on the
host (the host fails when the widget is absent). -/
def Component.getWidget (c : Component) : Except String Widget :=
  match c.window with
  | none => Except.error "The window is gone."
  | some w =>
    match findWidget w c.description with
    | some widget => Except.ok widget
    | none => Except.error "widget is undefined"

/-- `Component.active(toggle)`: resolves the widget and sets its
`isDisabled` flag to the negation of `toggle`; the in-place mutation is
modelled as updating the widget inside the window.  The trailing
`refreshWidget` call is abstract and has no modelled effect. -/
def Component.active (c : Component) (toggle : Bool) : Except String Window :=
  match c.getWidget with
  | Except.error e => Except.error e
  | Except.ok _ =>
    match c.window with
    | none => Except.error "The window is gone."
    | some w =>
      Except.ok (updateFirst w c.description (fun x => { x with isDisabled := !toggle }))

/-! Small state lemmas shared by the claim proofs. -/

theorem trace_setField (s : BState) (w : FieldWrite) :
    (setField s w).trace = s.trace ++ [w] := rfl

theorem subsOf_setField (s : BState) (w : FieldWrite) (id : Nat) :
    subsOf (setField s w) id = subsOf s id := rfl

theorem obsGet_setField (s : BState) (w : FieldWrite) (id : Nat) :
    obsGet (setField s w) id = obsGet s id := rfl

theorem trace_obsSubscribe (s : BState) (id : Nat) (f : String) :
    (obsSubscribe s id f).trace = s.trace := rfl

theorem subsOf_obsSubscribe_self (s : BState) (id : Nat) (f : String)
    (h : id < s.observables.length) :
    subsOf (obsSubscribe s id f) id = subsOf s id ++ [f] := by
  simp [subsOf, obsSubscribe, List.getD_eq_getElem?_getD,
    List.getElem?_set_eq_of_lt _ h]

theorem subsOf_obsSubscribe_ne (s : BState) (id id' : Nat) (f : String)
    (h : id ≠ id') :
    subsOf (obsSubscribe s id f) id' = subsOf s id' := by
  simp [subsOf, obsSubscribe, List.getD_eq_getElem?_getD, List.getElem?_set_ne h]

theorem trace_obsSet (s : BState) (id : Nat) (v : Val) :
    (obsSet s id v).trace = s.trace ++ (subsOf s id).map (fun f => FieldWrite.value f v) :=
  rfl

theorem obsGet_obsSet_self (s : BState) (id : Nat) (v : Val)
    (h : id < s.observables.length) :
    obsGet (obsSet s id v) id = v := by
  simp [obsGet, obsSet, List.getD_eq_getElem?_getD, List.getElem?_set_eq_of_lt _ h]

/-! Claim theorems. -/

/-- Claim C1: for a binding key whose descriptor is a string (to-target)
and whose viewmodel property resolves to an Observable, `Binder.apply`
pushes the observable's current value into the named view field exactly
once via `context.setField` at apply time (the trace grows by exactly that
one write), and subscribes a callback so that a subsequent `set v` on that
observable pushes `v` to the same field again. -/
theorem binder_toTarget_pushes_once_and_resubscribes
    (s : BState) (vm : VM) (k f : String) (id : Nat) (v : Val)
    (hvm : vmLookup vm k = some (VMProp.obs id))
    (hid : id < s.observables.length)
    (hsubs : subsOf s id = []) :
    (Binder.apply s vm [(k, BindingDesc.toTarget f)]).trace
        = s.trace ++ [FieldWrite.value f (obsGet s id)]
    ∧ subsOf (Binder.apply s vm [(k, BindingDesc.toTarget f)]) id = [f]
    ∧ (Binder.apply s vm [(k, BindingDesc.toTarget f)]).warnings = s.warnings
    ∧ (obsSet (Binder.apply s vm [(k, BindingDesc.toTarget f)]) id v).trace
        = (Binder.apply s vm [(k, BindingDesc.toTarget f)]).trace
            ++ [FieldWrite.value f v] := by
  have happ : Binder.apply s vm [(k, BindingDesc.toTarget f)]
      = obsSubscribe (setField s (FieldWrite.value f (obsGet s id))) id f := by
    simp [Binder.apply, applyBinding, hvm, alookup]
  have hsub2 : subsOf (Binder.apply s vm [(k, BindingDesc.toTarget f)]) id = [f] := by
    rw [happ,
      subsOf_obsSubscribe_self (setField s (FieldWrite.value f (obsGet s id))) id f hid,
      subsOf_setField, hsubs, List.nil_append]
  refine ⟨by rw [happ]; rfl, hsub2, by rw [happ]; rfl, ?_⟩
  rw [trace_obsSet, hsub2]
  rfl

/-- Witness for C1 at a concrete input: the scenario
`{ count: "label" }` with `viewmodel.count = Observable(0)`. -/
theorem binder_toTarget_witness :
    (vmLookup [("count", VMProp.obs 0)] "count" = some (VMProp.obs 0))
    ∧ (0 < (BState.mk [⟨Val.int 0, []⟩] [] []).observables.length)
    ∧ (subsOf (BState.mk [⟨Val.int 0, []⟩] [] []) 0 = [])
    ∧ ((Binder.apply (BState.mk [⟨Val.int 0, []⟩] [] [])
          [("count", VMProp.obs 0)] [("count", BindingDesc.toTarget "label")]).trace
        = (BState.mk [⟨Val.int 0, []⟩] [] []).trace
            ++ [FieldWrite.value "label"
                  (obsGet (BState.mk [⟨Val.int 0, []⟩] [] []) 0)]
      ∧ subsOf (Binder.apply (BState.mk [⟨Val.int 0, []⟩] [] [])
          [("count", VMProp.obs 0)] [("count", BindingDesc.toTarget "label")]) 0 = ["label"]
      ∧ (Binder.apply (BState.mk [⟨Val.int 0, []⟩] [] [])
          [("count", VMProp.obs 0)] [("count", BindingDesc.toTarget "label")]).warnings
            = (BState.mk [⟨Val.int 0, []⟩] [] []).warnings
      ∧ (obsSet (Binder.apply (BState.mk [⟨Val.int 0, []⟩] [] [])
            [("count", VMProp.obs 0)] [("count", BindingDesc.toTarget "label")]) 0
            (Val.int 3)).trace
          = (Binder.apply (BState.mk [⟨Val.int 0, []⟩] [] [])
              [("count", VMProp.obs 0)] [("count", BindingDesc.toTarget "label")]).trace
              ++ [FieldWrite.value "label" (Val.int 3)]) :=
  ⟨by decide, by decide, by decide,
    binder_toTarget_pushes_once_and_resubscribes
      (BState.mk [⟨Val.int 0, []⟩] [] []) [("count", VMProp.obs 0)]
      "count" "label" 0 (Val.int 3) (by decide) (by decide) (by decide)⟩

/-- Claim C7: for every observable and value, after `set v` the `get` call
returns `v`, and every subscriber registered before the call is invoked
exactly once with `v`, in registration order: the trace grows by exactly
the list of pushes, one per subscriber, in list order.  No hypothesis
relates `v` to the previous value: a `set` with an equal value still
notifies. -/
theorem observable_set_stores_and_notifies
    (s : BState) (id : Nat) (v : Val)
    (hid : id < s.observables.length) :
    obsGet (obsSet s id v) id = v
    ∧ (obsSet s id v).trace
        = s.trace ++ (subsOf s id).map (fun f => FieldWrite.value f v) :=
  ⟨obsGet_obsSet_self s id v hid, rfl⟩

/-- Witness for C7: the scenario `Observable(5)` → `set 7`. -/
theorem observable_set_witness :
    (0 < (BState.mk [⟨Val.int 5, ["label"]⟩] [] []).observables.length)
    ∧ (obsGet (obsSet (BState.mk [⟨Val.int 5, ["label"]⟩] [] []) 0 (Val.int 7)) 0
        = Val.int 7
      ∧ (obsSet (BState.mk [⟨Val.int 5, ["label"]⟩] [] []) 0 (Val.int 7)).trace
          = (BState.mk [⟨Val.int 5, ["label"]⟩] [] []).trace
              ++ (subsOf (BState.mk [⟨Val.int 5, ["label"]⟩] [] []) 0).map
                  (fun f => FieldWrite.value f (Val.int 7))) :=
  ⟨by decide,
    observable_set_stores_and_notifies (BState.mk [⟨Val.int 5, ["label"]⟩] [] [])
      0 (Val.int 7) (by decide)⟩

/-- Claim C9: a binding key whose viewmodel property resolves to an
Observable but whose descriptor is an object without an `update` key makes
no `setField` call and no subscription, yet `applyBinding` returns `true`;
consequently `Binder.apply` leaves the whole state — trace, observables
and warnings — unchanged: the malformed binding is silently dropped with
no diagnostic. -/
theorem binder_obj_without_update_silently_dropped
    (s : BState) (vm : VM) (k : String) (id : Nat) (bindF : Option String)
    (hvm : vmLookup vm k = some (VMProp.obs id)) :
    applyBinding s vm [(k, BindingDesc.obj bindF none)] k = (s, true)
    ∧ Binder.apply s vm [(k, BindingDesc.obj bindF none)] = s := by
  constructor
  · simp [applyBinding, hvm, alookup]
  · simp [Binder.apply, applyBinding, hvm, alookup]

/-- Witness for C9: a descriptor `{ bind: "a" }` on a resolved observable. -/
theorem binder_obj_without_update_witness :
    (vmLookup [("count", VMProp.obs 0)] "count" = some (VMProp.obs 0))
    ∧ (applyBinding (BState.mk [⟨Val.int 0, []⟩] [] []) [("count", VMProp.obs 0)]
          [("count", BindingDesc.obj (some "a") none)] "count"
        = (BState.mk [⟨Val.int 0, []⟩] [] [], true)
      ∧ Binder.apply (BState.mk [⟨Val.int 0, []⟩] [] []) [("count", VMProp.obs 0)]
          [("count", BindingDesc.obj (some "a") none)]
        = BState.mk [⟨Val.int 0, []⟩] [] []) :=
  ⟨by decide,
    binder_obj_without_update_silently_dropped (BState.mk [⟨Val.int 0, []⟩] [] [])
      [("count", VMProp.obs 0)] "count" 0 (some "a") (by decide)⟩

/-- The failing cases of `applyBinding`: an absent property or a
non-observable property leaves the state untouched and returns `false`. -/
theorem applyBinding_fail (s : BState) (vm : VM) (bindings : Bindings) (k : String)
    (hfail : vmLookup vm k = none ∨ ∃ x, vmLookup vm k = some (VMProp.raw x)) :
    applyBinding s vm bindings k = (s, false) := by
  rcases hfail with h | ⟨x, h⟩ <;> simp [applyBinding, h]

/-- `applyBinding` inspects the bindings record only through the lookup of
its own key. -/
theorem applyBinding_bindings_congr (s : BState) (vm : VM) (k : String)
    (b1 b2 : Bindings) (h : alookup b1 k = alookup b2 k) :
    applyBinding s vm b1 k = applyBinding s vm b2 k := by
  rcases hv : vmLookup vm k with _ | p
  · simp [applyBinding, hv]
  · rcases p with id | x
    · simp only [applyBinding, hv, h]
    · simp [applyBinding, hv]

/-- `applyBinding` never touches the warnings list. -/
theorem applyBinding_warnings (s : BState) (vm : VM) (b : Bindings) (k : String) :
    (applyBinding s vm b k).1.warnings = s.warnings := by
  rcases hv : vmLookup vm k with _ | p
  · simp [applyBinding, hv]
  · rcases p with id | x
    · rcases ha : alookup b k with _ | d
      · simp [applyBinding, hv, ha]
      · rcases d with f | ⟨bF, uF⟩
        · simp [applyBinding, hv, ha, setField, obsSubscribe]
        · rcases uF with _ | u
          · simp [applyBinding, hv, ha]
          · rcases bF with _ | bf
            · simp [applyBinding, hv, ha, setField]
            · simp [applyBinding, hv, ha, setField, obsSubscribe]
    · simp [applyBinding, hv]

/-- The fold underlying `Binder.apply` only depends on the bindings record
through the lookups of the keys it iterates. -/
theorem binder_apply_foldl_congr (vm : VM) (b1 b2 : Bindings) (l : Bindings)
    (s : BState) (h : ∀ kv ∈ l, alookup b1 kv.1 = alookup b2 kv.1) :
    l.foldl (fun st kv =>
        let r := applyBinding st vm b1 kv.1
        if r.2 then r.1 else { r.1 with warnings := r.1.warnings ++ [kv.1] }) s
    = l.foldl (fun st kv =>
        let r := applyBinding st vm b2 kv.1
        if r.2 then r.1 else { r.1 with warnings := r.1.warnings ++ [kv.1] }) s := by
  induction l generalizing s with
  | nil => rfl
  | cons kv rest ih =>
    simp only [List.foldl_cons]
    rw [applyBinding_bindings_congr s vm kv.1 b1 b2 (h kv (by simp))]
    exact ih _ (fun kv2 hm => h kv2 (by simp [hm]))

/-- The fold underlying `Binder.apply` only appends to the warnings list. -/
theorem binder_apply_foldl_warnings (vm : VM) (b : Bindings) (l : Bindings)
    (s : BState) :
    ∃ w, (l.foldl (fun st kv =>
        let r := applyBinding st vm b kv.1
        if r.2 then r.1 else { r.1 with warnings := r.1.warnings ++ [kv.1] }) s).warnings
      = s.warnings ++ w := by
  induction l generalizing s with
  | nil => exact ⟨[], by simp⟩
  | cons kv rest ih =>
    rw [List.foldl_cons]
    by_cases hr : (applyBinding s vm b kv.1).2 = true
    · obtain ⟨w, hw⟩ := ih (applyBinding s vm b kv.1).1
      refine ⟨w, ?_⟩
      simp only [hr, if_true] at *
      rw [hw, applyBinding_warnings]
    · obtain ⟨w, hw⟩ := ih { (applyBinding s vm b kv.1).1 with
        warnings := (applyBinding s vm b kv.1).1.warnings ++ [kv.1] }
      refine ⟨[kv.1] ++ w, ?_⟩
      simp only [Bool.not_eq_true] at hr
      simp only [hr, Bool.false_eq_true, if_false] at *
      rw [hw]
      simp [applyBinding_warnings, List.append_assoc]

/-- `Binder.apply` only appends to the warnings list. -/
theorem binder_apply_warnings_mono (s : BState) (vm : VM) (bindings : Bindings) :
    ∃ w, (Binder.apply s vm bindings).warnings = s.warnings ++ w := by
  unfold Binder.apply
  exact binder_apply_foldl_warnings vm bindings bindings s

/-- Claim C3: a binding key whose viewmodel property is absent or present
but not an Observable causes no exception (`applyBinding` is total and
returns the state untouched with `false`: no `setField`, no subscription),
the key is reported as a warning, and the remaining keys are processed
exactly as they would be without the failing key. -/
theorem binder_apply_skips_unresolvable
    (s : BState) (vm : VM) (k : String) (d : BindingDesc) (rest : Bindings)
    (hfail : vmLookup vm k = none ∨ ∃ x, vmLookup vm k = some (VMProp.raw x))
    (hk : ∀ kv ∈ rest, kv.1 ≠ k) :
    applyBinding s vm ((k, d) :: rest) k = (s, false)
    ∧ Binder.apply s vm ((k, d) :: rest)
        = Binder.apply { s with warnings := s.warnings ++ [k] } vm rest
    ∧ k ∈ (Binder.apply s vm ((k, d) :: rest)).warnings := by
  have hfailc : applyBinding s vm ((k, d) :: rest) k = (s, false) :=
    applyBinding_fail s vm ((k, d) :: rest) k hfail
  have hstep : Binder.apply s vm ((k, d) :: rest)
      = Binder.apply { s with warnings := s.warnings ++ [k] } vm rest := by
    unfold Binder.apply
    rw [List.foldl_cons]
    simp only [hfailc]
    exact binder_apply_foldl_congr vm ((k, d) :: rest) rest rest
      { s with warnings := s.warnings ++ [k] }
      (fun kv hm => by simp [alookup, Ne.symm (hk kv hm)])
  refine ⟨hfailc, hstep, ?_⟩
  rw [hstep]
  obtain ⟨w, hw⟩ := binder_apply_warnings_mono
    { s with warnings := s.warnings ++ [k] } vm rest
  rw [hw]
  simp

/-- Witness for C3: key `"missing"` is absent on the viewmodel, key
`"count"` follows and still binds. -/
theorem binder_apply_skips_unresolvable_witness :
    (vmLookup [("count", VMProp.obs 0)] "missing" = none
      ∨ ∃ x, vmLookup [("count", VMProp.obs 0)] "missing" = some (VMProp.raw x))
    ∧ (∀ kv ∈ [("count", BindingDesc.toTarget "label")], kv.1 ≠ "missing")
    ∧ (applyBinding (BState.mk [⟨Val.int 0, []⟩] [] []) [("count", VMProp.obs 0)]
          (("missing", BindingDesc.toTarget "x")
            :: [("count", BindingDesc.toTarget "label")]) "missing"
        = (BState.mk [⟨Val.int 0, []⟩] [] [], false)
      ∧ Binder.apply (BState.mk [⟨Val.int 0, []⟩] [] []) [("count", VMProp.obs 0)]
          (("missing", BindingDesc.toTarget "x")
            :: [("count", BindingDesc.toTarget "label")])
        = Binder.apply { BState.mk [⟨Val.int 0, []⟩] [] [] with
            warnings := (BState.mk [⟨Val.int 0, []⟩] [] []).warnings ++ ["missing"] }
            [("count", VMProp.obs 0)] [("count", BindingDesc.toTarget "label")]
      ∧ "missing" ∈ (Binder.apply (BState.mk [⟨Val.int 0, []⟩] [] [])
          [("count", VMProp.obs 0)]
          (("missing", BindingDesc.toTarget "x")
            :: [("count", BindingDesc.toTarget "label")])).warnings) :=
  ⟨Or.inl rfl, by decide,
    binder_apply_skips_unresolvable (BState.mk [⟨Val.int 0, []⟩] [] [])
      [("count", VMProp.obs 0)] "missing" (BindingDesc.toTarget "x")
      [("count", BindingDesc.toTarget "label")] (Or.inl rfl) (by decide)⟩

/-- When the key is present in the bindings record, `applyBinding`
succeeds precisely when the viewmodel resolves it to an Observable. -/
theorem applyBinding_snd (s : BState) (vm : VM) (b : Bindings) (k : String)
    (d : BindingDesc) (hb : alookup b k = some d) :
    (applyBinding s vm b k).2 = resolvesObs vm k := by
  rcases hv : vmLookup vm k with _ | p
  · simp [applyBinding, resolvesObs, hv]
  · rcases p with id | x
    · rcases d with f | ⟨bF, uF⟩
      · simp [applyBinding, resolvesObs, hv, hb]
      · rcases uF with _ | u
        · simp [applyBinding, resolvesObs, hv, hb]
        · rcases bF with _ | bf <;> simp [applyBinding, resolvesObs, hv, hb]
    · simp [applyBinding, resolvesObs, hv]

/-- The inner loop of `applyAll` attempts every viewmodel and records a
success exactly when some viewmodel resolves the key. -/
theorem applyAll_fold_snd (b : Bindings) (k : String) (d : BindingDesc)
    (hb : alookup b k = some d) (vms : List VM) (s : BState) (flag : Bool) :
    (vms.foldl (applyAllStep b k) (s, flag)).2
      = (flag || vms.any (fun vm => resolvesObs vm k)) := by
  induction vms generalizing s flag with
  | nil => simp
  | cons vm rest ih =>
    rw [List.foldl_cons]
    have hstep : applyAllStep b k (s, flag) vm
        = ((applyBinding s vm b k).1, resolvesObs vm k || flag) := by
      simp [applyAllStep, applyBinding_snd _ _ _ _ d hb]
    rw [hstep, ih]
    cases flag <;> cases hres : resolvesObs vm k <;> simp [hres]

/-- The inner loop of `applyAll` never touches the warnings list. -/
theorem applyAll_fold_warnings (b : Bindings) (k : String) (vms : List VM)
    (s : BState) (flag : Bool) :
    (vms.foldl (applyAllStep b k) (s, flag)).1.warnings = s.warnings := by
  induction vms generalizing s flag with
  | nil => rfl
  | cons vm rest ih =>
    rw [List.foldl_cons,
      show applyAllStep b k (s, flag) vm
        = ((applyBinding s vm b k).1, (applyBinding s vm b k).2 || flag) from rfl,
      ih]
    exact applyBinding_warnings s vm b k

/-- Claim C2: `Binder.applyAll` attempts every key against each viewmodel
in order; a warning for the key is emitted exactly when no viewmodel
resolves it (first conjunct, for an arbitrary viewmodel list), and when
two viewmodels both resolve the same key each one independently gets its
own binding, even though the first already succeeded (second conjunct:
both observables end up subscribed). -/
theorem binder_applyAll_warns_iff_none_and_binds_independently
    (s : BState) (vms : List VM) (k f : String) (d : BindingDesc)
    (v0 v1 : Val) :
    ((Binder.applyAll s vms [(k, d)]).warnings
        = s.warnings ++ (if vms.any (fun vm => resolvesObs vm k) then [] else [k]))
    ∧ (subsOf (Binder.applyAll (BState.mk [⟨v0, []⟩, ⟨v1, []⟩] [] [])
          [[(k, VMProp.obs 0)], [(k, VMProp.obs 1)]] [(k, BindingDesc.toTarget f)]) 0
        = [f]
      ∧ subsOf (Binder.applyAll (BState.mk [⟨v0, []⟩, ⟨v1, []⟩] [] [])
          [[(k, VMProp.obs 0)], [(k, VMProp.obs 1)]] [(k, BindingDesc.toTarget f)]) 1
        = [f]
      ∧ (Binder.applyAll (BState.mk [⟨v0, []⟩, ⟨v1, []⟩] [] [])
          [[(k, VMProp.obs 0)], [(k, VMProp.obs 1)]] [(k, BindingDesc.toTarget f)]).warnings
        = []) := by
  constructor
  · have hb : alookup [(k, d)] k = some d := by simp [alookup]
    have hsnd := applyAll_fold_snd [(k, d)] k d hb vms s false
    have hwar := applyAll_fold_warnings [(k, d)] k vms s false
    have happ : Binder.applyAll s vms [(k, d)]
        = (if (vms.foldl (applyAllStep [(k, d)] k) (s, false)).2
            then (vms.foldl (applyAllStep [(k, d)] k) (s, false)).1
            else { (vms.foldl (applyAllStep [(k, d)] k) (s, false)).1 with
                warnings := (vms.foldl (applyAllStep [(k, d)] k) (s, false)).1.warnings
                  ++ [k] }) := by
      simp [Binder.applyAll]
    rw [happ]
    cases hany : vms.any (fun vm => resolvesObs vm k) with
    | false =>
      rw [hany] at hsnd
      simp only [Bool.false_or] at hsnd
      simp [hsnd, hwar]
    | true =>
      rw [hany] at hsnd
      simp only [Bool.false_or] at hsnd
      simp [hsnd, hwar]
  · refine ⟨?_, ?_, ?_⟩ <;>
      simp [Binder.applyAll, applyAllStep, applyBinding, vmLookup, alookup,
        setField, obsSubscribe, obsSet, subsOf, obsGet, List.getD_cons_zero,
        List.getD_cons_succ]

/-- Claim C5: for a descriptor with only `update` (to-source) on a
resolved Observable, `Binder.apply` registers via `context.setField` a
handler on the named `update` field (the only context call made), and
invoking that handler with any value `v` performs the observable's
`set v`, so its `get` subsequently returns `v`. -/
theorem binder_toSource_installs_write_channel
    (s : BState) (vm : VM) (k u : String) (id : Nat) (v : Val)
    (hvm : vmLookup vm k = some (VMProp.obs id))
    (hid : id < s.observables.length) :
    (Binder.apply s vm [(k, BindingDesc.obj none (some u))]).trace
        = s.trace ++ [FieldWrite.handler u id]
    ∧ (Binder.apply s vm [(k, BindingDesc.obj none (some u))]).warnings = s.warnings
    ∧ obsGet (invokeField (Binder.apply s vm [(k, BindingDesc.obj none (some u))]) u v)
        id = v := by
  have happ : Binder.apply s vm [(k, BindingDesc.obj none (some u))]
      = setField s (FieldWrite.handler u id) := by
    simp [Binder.apply, applyBinding, hvm, alookup]
  refine ⟨by rw [happ]; rfl, by rw [happ]; rfl, ?_⟩
  have hlh : latestHandler (setField s (FieldWrite.handler u id)).trace u = some id := by
    simp [latestHandler, trace_setField, List.findSome?_cons]
  have hinv : invokeField (setField s (FieldWrite.handler u id)) u v
      = obsSet (setField s (FieldWrite.handler u id)) id v := by
    simp [invokeField, hlh]
  rw [happ, hinv]
  exact obsGet_obsSet_self _ _ _ hid

/-- Witness for C5: the descriptor `{ update: "spinner" }` on
`Observable(0)`; invoking the spinner handler with `9` stores `9`. -/
theorem binder_toSource_witness :
    (vmLookup [("count", VMProp.obs 0)] "count" = some (VMProp.obs 0))
    ∧ (0 < (BState.mk [⟨Val.int 0, []⟩] [] []).observables.length)
    ∧ ((Binder.apply (BState.mk [⟨Val.int 0, []⟩] [] []) [("count", VMProp.obs 0)]
          [("count", BindingDesc.obj none (some "spinner"))]).trace
        = (BState.mk [⟨Val.int 0, []⟩] [] []).trace ++ [FieldWrite.handler "spinner" 0]
      ∧ (Binder.apply (BState.mk [⟨Val.int 0, []⟩] [] []) [("count", VMProp.obs 0)]
          [("count", BindingDesc.obj none (some "spinner"))]).warnings
        = (BState.mk [⟨Val.int 0, []⟩] [] []).warnings
      ∧ obsGet (invokeField (Binder.apply (BState.mk [⟨Val.int 0, []⟩] [] [])
            [("count", VMProp.obs 0)]
            [("count", BindingDesc.obj none (some "spinner"))]) "spinner" (Val.int 9)) 0
        = Val.int 9) :=
  ⟨by decide, by decide,
    binder_toSource_installs_write_channel (BState.mk [⟨Val.int 0, []⟩] [] [])
      [("count", VMProp.obs 0)] "count" "spinner" 0 (Val.int 9)
      (by decide) (by decide)⟩

/-- Claim C6: after `Binder.apply` establishes a to-target binding from
key `k` to field `f`, a `set` on any observable other than the bound one
causes no `setField` call at all (in particular none to `f`): the trace is
unchanged by such a set. -/
theorem binder_toTarget_unrelated_observable_no_push
    (s : BState) (vm : VM) (k f : String) (id id' : Nat) (v : Val)
    (hvm : vmLookup vm k = some (VMProp.obs id))
    (hne : id ≠ id')
    (hsubs' : subsOf s id' = []) :
    (obsSet (Binder.apply s vm [(k, BindingDesc.toTarget f)]) id' v).trace
      = (Binder.apply s vm [(k, BindingDesc.toTarget f)]).trace := by
  have happ : Binder.apply s vm [(k, BindingDesc.toTarget f)]
      = obsSubscribe (setField s (FieldWrite.value f (obsGet s id))) id f := by
    simp [Binder.apply, applyBinding, hvm, alookup]
  have hs : subsOf (Binder.apply s vm [(k, BindingDesc.toTarget f)]) id' = [] := by
    rw [happ,
      subsOf_obsSubscribe_ne (setField s (FieldWrite.value f (obsGet s id))) id id' f hne,
      subsOf_setField, hsubs']
  rw [trace_obsSet, hs]
  simp

/-- Witness for C6: two observables, key bound to the first; a set on the
second pushes nothing. -/
theorem binder_toTarget_unrelated_witness :
    (vmLookup [("count", VMProp.obs 0)] "count" = some (VMProp.obs 0))
    ∧ ((0 : Nat) ≠ 1)
    ∧ (subsOf (BState.mk [⟨Val.int 0, []⟩, ⟨Val.int 4, []⟩] [] []) 1 = [])
    ∧ ((obsSet (Binder.apply (BState.mk [⟨Val.int 0, []⟩, ⟨Val.int 4, []⟩] [] [])
          [("count", VMProp.obs 0)] [("count", BindingDesc.toTarget "label")]) 1
          (Val.int 8)).trace
        = (Binder.apply (BState.mk [⟨Val.int 0, []⟩, ⟨Val.int 4, []⟩] [] [])
            [("count", VMProp.obs 0)] [("count", BindingDesc.toTarget "label")]).trace) :=
  ⟨by decide, by decide, by decide,
    binder_toTarget_unrelated_observable_no_push
      (BState.mk [⟨Val.int 0, []⟩, ⟨Val.int 4, []⟩] [] [])
      [("count", VMProp.obs 0)] "count" "label" 0 1 (Val.int 8)
      (by decide) (by decide) (by decide)⟩

/-- Claim C4: a two-way descriptor `{ bind: b, update: u }` on a resolved
Observable (a) pushes the current value to field `b` and subscribes so a
future `set` re-pushes to `b` (and only to `b`: the pushes triggered by a
set are display writes, so they never alter the handler registered on
`u`), and (b) registers on field `u` a handler whose invocation with `w`
writes `w` into the observable; the two directions use their respective
field names. -/
theorem binder_twoWay_binds_both_directions
    (s : BState) (vm : VM) (k b u : String) (id : Nat) (v w : Val)
    (hvm : vmLookup vm k = some (VMProp.obs id))
    (hid : id < s.observables.length)
    (hsubs : subsOf s id = []) :
    (Binder.apply s vm [(k, BindingDesc.obj (some b) (some u))]).trace
        = s.trace ++ [FieldWrite.handler u id, FieldWrite.value b (obsGet s id)]
    ∧ subsOf (Binder.apply s vm [(k, BindingDesc.obj (some b) (some u))]) id = [b]
    ∧ (obsSet (Binder.apply s vm [(k, BindingDesc.obj (some b) (some u))]) id v).trace
        = (Binder.apply s vm [(k, BindingDesc.obj (some b) (some u))]).trace
            ++ [FieldWrite.value b v]
    ∧ latestHandler
        (obsSet (Binder.apply s vm [(k, BindingDesc.obj (some b) (some u))]) id v).trace u
      = latestHandler (Binder.apply s vm [(k, BindingDesc.obj (some b) (some u))]).trace u
    ∧ obsGet (invokeField (Binder.apply s vm [(k, BindingDesc.obj (some b) (some u))]) u w)
        id = w := by
  have happ : Binder.apply s vm [(k, BindingDesc.obj (some b) (some u))]
      = obsSubscribe (setField (setField s (FieldWrite.handler u id))
          (FieldWrite.value b (obsGet s id))) id b := by
    simp [Binder.apply, applyBinding, hvm, alookup, obsGet_setField]
  have htr : (Binder.apply s vm [(k, BindingDesc.obj (some b) (some u))]).trace
      = s.trace ++ [FieldWrite.handler u id, FieldWrite.value b (obsGet s id)] := by
    rw [happ, trace_obsSubscribe, trace_setField, trace_setField, List.append_assoc]
    rfl
  have hsub2 : subsOf (Binder.apply s vm [(k, BindingDesc.obj (some b) (some u))]) id
      = [b] := by
    rw [happ,
      subsOf_obsSubscribe_self (setField (setField s (FieldWrite.handler u id))
        (FieldWrite.value b (obsGet s id))) id b hid,
      subsOf_setField, subsOf_setField, hsubs, List.nil_append]
  have hlh : latestHandler
      (Binder.apply s vm [(k, BindingDesc.obj (some b) (some u))]).trace u = some id := by
    rw [htr]
    simp [latestHandler, List.findSome?_cons]
  have hinv : invokeField (Binder.apply s vm [(k, BindingDesc.obj (some b) (some u))]) u w
      = obsSet (Binder.apply s vm [(k, BindingDesc.obj (some b) (some u))]) id w := by
    simp [invokeField, hlh]
  have hlen : (Binder.apply s vm [(k, BindingDesc.obj (some b) (some u))]).observables.length
      = s.observables.length := by
    rw [happ]
    simp [obsSubscribe, setField]
  refine ⟨htr, hsub2, by rw [trace_obsSet, hsub2]; rfl, ?_, ?_⟩
  · rw [trace_obsSet, hsub2]
    simp [latestHandler, List.findSome?_cons]
  · rw [hinv]
    exact obsGet_obsSet_self _ _ _ (by rw [hlen]; exact hid)

/-- Witness for C4: the descriptor `{ bind: "a", update: "b" }` on
`Observable(0)`, with a display set of `3` and a reverse write of `9`. -/
theorem binder_twoWay_witness :
    (vmLookup [("count", VMProp.obs 0)] "count" = some (VMProp.obs 0))
    ∧ (0 < (BState.mk [⟨Val.int 0, []⟩] [] []).observables.length)
    ∧ (subsOf (BState.mk [⟨Val.int 0, []⟩] [] []) 0 = [])
    ∧ ((Binder.apply (BState.mk [⟨Val.int 0, []⟩] [] []) [("count", VMProp.obs 0)]
          [("count", BindingDesc.obj (some "a") (some "b"))]).trace
        = (BState.mk [⟨Val.int 0, []⟩] [] []).trace
            ++ [FieldWrite.handler "b" 0,
                FieldWrite.value "a" (obsGet (BState.mk [⟨Val.int 0, []⟩] [] []) 0)]
      ∧ subsOf (Binder.apply (BState.mk [⟨Val.int 0, []⟩] [] [])
          [("count", VMProp.obs 0)] [("count", BindingDesc.obj (some "a") (some "b"))]) 0
        = ["a"]
      ∧ (obsSet (Binder.apply (BState.mk [⟨Val.int 0, []⟩] [] [])
            [("count", VMProp.obs 0)]
            [("count", BindingDesc.obj (some "a") (some "b"))]) 0 (Val.int 3)).trace
        = (Binder.apply (BState.mk [⟨Val.int 0, []⟩] [] [])
            [("count", VMProp.obs 0)]
            [("count", BindingDesc.obj (some "a") (some "b"))]).trace
            ++ [FieldWrite.value "a" (Val.int 3)]
      ∧ latestHandler (obsSet (Binder.apply (BState.mk [⟨Val.int 0, []⟩] [] [])
            [("count", VMProp.obs 0)]
            [("count", BindingDesc.obj (some "a") (some "b"))]) 0 (Val.int 3)).trace "b"
        = latestHandler (Binder.apply (BState.mk [⟨Val.int 0, []⟩] [] [])
            [("count", VMProp.obs 0)]
            [("count", BindingDesc.obj (some "a") (some "b"))]).trace "b"
      ∧ obsGet (invokeField (Binder.apply (BState.mk [⟨Val.int 0, []⟩] [] [])
            [("count", VMProp.obs 0)]
            [("count", BindingDesc.obj (some "a") (some "b"))]) "b" (Val.int 9)) 0
        = Val.int 9) :=
  ⟨by decide, by decide, by decide,
    binder_twoWay_binds_both_directions (BState.mk [⟨Val.int 0, []⟩] [] [])
      [("count", VMProp.obs 0)] "count" "a" "b" 0 (Val.int 3) (Val.int 9)
      (by decide) (by decide) (by decide)⟩

/-- Claim C10: for a two-way descriptor, the `setField` call that
registers the `update` handler happens strictly before the `setField`
call performing the initial push to the `bind` field: the trace grows by
the handler registration first, the display push second. -/
theorem binder_twoWay_handler_registered_before_push
    (s : BState) (vm : VM) (k b u : String) (id : Nat)
    (hvm : vmLookup vm k = some (VMProp.obs id)) :
    (Binder.apply s vm [(k, BindingDesc.obj (some b) (some u))]).trace
      = (s.trace ++ [FieldWrite.handler u id]) ++ [FieldWrite.value b (obsGet s id)] := by
  have happ : Binder.apply s vm [(k, BindingDesc.obj (some b) (some u))]
      = obsSubscribe (setField (setField s (FieldWrite.handler u id))
          (FieldWrite.value b (obsGet s id))) id b := by
    simp [Binder.apply, applyBinding, hvm, alookup, obsGet_setField]
  rw [happ, trace_obsSubscribe, trace_setField, trace_setField]

/-- Witness for C10 at the two-way scenario `{ bind: "a", update: "b" }`. -/
theorem binder_twoWay_order_witness :
    (vmLookup [("count", VMProp.obs 0)] "count" = some (VMProp.obs 0))
    ∧ ((Binder.apply (BState.mk [⟨Val.int 0, []⟩] [] []) [("count", VMProp.obs 0)]
          [("count", BindingDesc.obj (some "a") (some "b"))]).trace
        = ((BState.mk [⟨Val.int 0, []⟩] [] []).trace ++ [FieldWrite.handler "b" 0])
            ++ [FieldWrite.value "a" (obsGet (BState.mk [⟨Val.int 0, []⟩] [] []) 0)]) :=
  ⟨by decide,
    binder_twoWay_handler_registered_before_push (BState.mk [⟨Val.int 0, []⟩] [] [])
      [("count", VMProp.obs 0)] "count" "a" "b" 0 (by decide)⟩

/-- Updating the disabled flag of the found widget is visible through a
subsequent lookup by the same name. -/
theorem findWidget_updateFirst_disabled (w : Window) (n : String) (d : Bool)
    (widget : Widget) (hfind : findWidget w n = some widget) :
    findWidget (updateFirst w n (fun x => { x with isDisabled := d })) n
      = some { widget with isDisabled := d } := by
  induction w with
  | nil => simp [findWidget] at hfind
  | cons x xs ih =>
    by_cases h : x.name = n
    · have hx : findWidget (x :: xs) n = some x := by
        simp [findWidget, List.find?_cons, h]
      rw [hx] at hfind
      injection hfind with hxw
      subst hxw
      simp [updateFirst, findWidget, List.find?_cons, h]
    · have h1 : findWidget (x :: xs) n = findWidget xs n := by
        simp [findWidget, List.find?_cons, h]
      rw [h1] at hfind
      have h2 : updateFirst (x :: xs) n (fun x => { x with isDisabled := d })
          = x :: updateFirst xs n (fun x => { x with isDisabled := d }) := by
        simp [updateFirst, h]
      rw [h2]
      have h3 : findWidget (x :: updateFirst xs n (fun x => { x with isDisabled := d })) n
          = findWidget (updateFirst xs n (fun x => { x with isDisabled := d })) n := by
        simp [findWidget, List.find?_cons, h]
      rw [h3]
      exact ih hfind

/-- Claim C8: `active true` on a component with no bound host fails with
the unbound-host error (widget resolution fails in the unbound state);
after `bind host`, when the host resolves the description's name to a
widget, the same call succeeds and leaves the resolved widget's
`isDisabled` flag set to `false`, the negation of the toggle argument. -/
theorem component_active_unbound_fails_then_bound_enables
    (desc : String) (w : Window) (widget : Widget)
    (hfind : findWidget w desc = some widget) :
    (Component.mk none desc).active true = Except.error "The window is gone."
    ∧ ((Component.mk none desc).bind w).active true
        = Except.ok (updateFirst w desc (fun x => { x with isDisabled := false }))
    ∧ (findWidget (updateFirst w desc (fun x => { x with isDisabled := false })) desc).map
        Widget.isDisabled = some false := by
  refine ⟨rfl, ?_, ?_⟩
  · simp [Component.active, Component.getWidget, Component.bind, hfind]
  · rw [findWidget_updateFirst_disabled w desc false widget hfind]
    rfl

/-- Witness for C8: a window with one widget named "ok", initially
disabled. -/
theorem component_active_witness :
    (findWidget [Widget.mk "ok" true] "ok" = some (Widget.mk "ok" true))
    ∧ ((Component.mk none "ok").active true = Except.error "The window is gone."
      ∧ ((Component.mk none "ok").bind [Widget.mk "ok" true]).active true
          = Except.ok (updateFirst [Widget.mk "ok" true] "ok"
              (fun x => { x with isDisabled := false }))
      ∧ (findWidget (updateFirst [Widget.mk "ok" true] "ok"
            (fun x => { x with isDisabled := false })) "ok").map Widget.isDisabled
          = some false) :=
  ⟨by decide,
    component_active_unbound_fails_then_bound_enables "ok" [Widget.mk "ok" true]
      (Widget.mk "ok" true) (by decide)⟩
